import Mathlib

/-!
Shallow embedding of the message-synchronization core of `miniover`
(`src/messages.rs`, with the data model of `src/types.rs`).

Network, disk and channel effects are modelled by an explicit environment
(`NetEnv`) that fixes the outcome of every external call, and every external
call the code makes is recorded in an explicit trace (`List Call`), so that
theorems can speak about which calls happen, with which arguments, and in
which order.
-/

namespace Miniover

/-- `types.rs`: the persisted configuration record. -/
structure Config where
  user_key : Option String
  secret : Option String
  device_id : Option String
  start_on_boot : Bool
  last_message_id : Option String
deriving Repr, DecidableEq

/-- `types.rs`: a downloaded message. -/
structure Message where
  id : Int
  id_str : String
  message : String
  app : String
  aid : Int
  aid_str : String
  icon : String
  date : Int
  priority : Int
  acked : Int
  umid : Int
  umid_str : String
  title : Option String
  url : Option String
  url_title : Option String
  sound : Option String
  html : Option Int
  receipt : Option String
deriving Repr, DecidableEq

/-- `types.rs`: the body of the messages.json response. -/
structure MessagesResponse where
  status : Int
  request : String
  messages : List Message
deriving Repr, DecidableEq

/-- `types.rs`: the application event enum sent on the outbound channel. -/
inductive Event where
  | Quit : Event
  | ToggleStartOnBoot : Event
  | ShowAbout : Event
  | Logout : Event
deriving Repr, DecidableEq

/-- Error categories of the fallible operations in `messages.rs`
(anyhow error messages are abstracted to their cause). -/
inductive Err where
  | httpFailure : Err
  | parseFailure : Err
  | badStatus : Err
  | missingCredentials : Err
  | saveFailed : Err
  | sendFailed : Err
deriving Repr, DecidableEq

/-- One external call made by the core: REST calls, the desktop
notification, and the config save. -/
inductive Call where
  | download : String → String → Call
  | notify : Message → Call
  | acknowledge : String → String → Call
  | delete : String → String → String → Call
  | save : Config → Call
deriving Repr, DecidableEq

/-- Environment fixing the outcome of every external effect: HTTP-level
success and parsed body of each REST response, the notification outcome,
whether `save_config` succeeds, and whether the event-channel send succeeds. -/
structure NetEnv where
  downloadHttpOk : Bool
  downloadBody : Except Err MessagesResponse
  deleteHttpOk : String → Bool
  deleteBody : String → Except Err (Option Int)
  ackHttpOk : String → Bool
  ackBody : String → Except Err (Option Int)
  notifyOk : Message → Bool
  saveOk : Bool
  sendOk : Bool

/-- `messages.rs` lines 27-55, `download_messages`: fail on non-success HTTP
status, propagate a body-parse failure, fail when the body's `status` field
is not 1, otherwise return the messages. -/
def download_messages (httpOk : Bool) (body : Except Err MessagesResponse) :
    Except Err (List Message) :=
  if httpOk = false then Except.error Err.httpFailure
  else
    match body with
    | Except.error e => Except.error e
    | Except.ok r =>
      if r.status ≠ 1 then Except.error Err.badStatus
      else Except.ok r.messages

/-- `messages.rs` lines 58-83, `delete_messages`: fail on non-success HTTP
status, propagate a body-parse failure, fail unless the JSON body's
`status` field is the number 1. -/
def delete_messages (httpOk : Bool) (body : Except Err (Option Int)) :
    Except Err Unit :=
  if httpOk = false then Except.error Err.httpFailure
  else
    match body with
    | Except.error e => Except.error e
    | Except.ok st =>
      if st ≠ some 1 then Except.error Err.badStatus
      else Except.ok ()

/-- `messages.rs` lines 86-110, `acknowledge_emergency`: fail on non-success
HTTP status, propagate a body-parse failure, fail unless the JSON body's
`status` field is the number 1. -/
def acknowledge_emergency (httpOk : Bool) (body : Except Err (Option Int)) :
    Except Err Unit :=
  if httpOk = false then Except.error Err.httpFailure
  else
    match body with
    | Except.error e => Except.error e
    | Except.ok st =>
      if st ≠ some 1 then Except.error Err.badStatus
      else Except.ok ()

/-- Rust `Iterator::max_by_key` on the `id` field, folded from an initial
element: a later element replaces the accumulator when its key is `≥`
(so among equal maxima the last one wins, as in Rust). -/
def maxAcc (a : Message) : List Message → Message
  | [] => a
  | m :: ms => maxAcc (if a.id ≤ m.id then m else a) ms

/-- `messages.rs` lines 143-148: the receipt an emergency acknowledge is
issued for, when the message qualifies (`priority >= 2 && acked == 0` and a
receipt is present). -/
def emergencyReceipt (m : Message) : Option String :=
  if 2 ≤ m.priority ∧ m.acked = 0 then m.receipt else none

/-- `messages.rs` lines 136-150: the calls made for one message of the
batch — a notification, then an acknowledge when the message qualifies.
Failures of either are only logged, so the calls are independent of
their outcomes. -/
def perMessageCalls (secret : String) (m : Message) : List Call :=
  match emergencyReceipt m with
  | some r => [Call.notify m, Call.acknowledge secret r]
  | none => [Call.notify m]

/-- The calls of the per-message loop over a whole batch, in batch order. -/
def loopCalls (secret : String) : List Message → List Call
  | [] => []
  | m :: ms => perMessageCalls secret m ++ loopCalls secret ms

/-- `messages.rs` lines 113-162, `process_messages`: guard on credentials,
download, stop on empty batch, pick the highest-id message, loop
(notify + conditional acknowledge), delete up to the highest id, and on
delete success update `last_message_id` and save the config (a save failure
propagates via `?`). Returns the Rust result, the updated in-memory config,
and the trace of external calls. -/
def process_messages (cfg : Config) (env : NetEnv) :
    Except Err Unit × Config × List Call :=
  match cfg.secret, cfg.device_id with
  | some secret, some device_id =>
    match download_messages env.downloadHttpOk env.downloadBody with
    | Except.error e => (Except.error e, cfg, [Call.download secret device_id])
    | Except.ok messages =>
      match messages with
      | [] => (Except.ok (), cfg, [Call.download secret device_id])
      | m0 :: rest =>
        let highest := maxAcc m0 rest
        let calls0 := Call.download secret device_id :: loopCalls secret (m0 :: rest)
        match delete_messages (env.deleteHttpOk highest.id_str)
            (env.deleteBody highest.id_str) with
        | Except.error _ =>
          (Except.ok (), cfg, calls0 ++ [Call.delete secret device_id highest.id_str])
        | Except.ok _ =>
          let cfg' := { cfg with last_message_id := some highest.id_str }
          ((if env.saveOk = true then Except.ok () else Except.error Err.saveFailed),
            cfg',
            calls0 ++ [Call.delete secret device_id highest.id_str, Call.save cfg'])
  | _, _ => (Except.error Err.missingCredentials, cfg, [])

/-- The decoded command of a single control byte (`messages.rs`
lines 232-275: the `match command` on `binary[0] as char`). -/
inductive Command where
  | KeepAlive : Command
  | NewData : Command
  | ReloadRequested : Command
  | PermanentError : Command
  | SessionSupersededElsewhere : Command
  | Unknown : Nat → Command
deriving Repr, DecidableEq

/-- The control-byte decoder: byte 35 is the character of KeepAlive, 33 of
NewData, 82 of ReloadRequested, 69 of PermanentError, 65 of
SessionSupersededElsewhere; every other byte is Unknown. -/
def decode (b : Nat) : Command :=
  if b = 35 then Command.KeepAlive
  else if b = 33 then Command.NewData
  else if b = 82 then Command.ReloadRequested
  else if b = 69 then Command.PermanentError
  else if b = 65 then Command.SessionSupersededElsewhere
  else Command.Unknown b

/-- One inbound item of the websocket read loop (`messages.rs`
lines 222-297): a frame variant, or a read error. -/
inductive WsItem where
  | text : String → WsItem
  | binary : List Nat → WsItem
  | ping : WsItem
  | pong : WsItem
  | close : WsItem
  | frame : WsItem
  | err : WsItem
deriving Repr, DecidableEq

/-- How one read-loop step ends: continue reading, break out of the loop,
or propagate a fatal error out of `consume_message_feed` (a failed channel
send). -/
inductive StepOutcome where
  | cont : StepOutcome
  | brk : StepOutcome
  | fatal : Err → StepOutcome
deriving Repr, DecidableEq

/-- Result of one read-loop step: the (possibly updated) config, the events
sent on the outbound channel, the external calls made, and how the step
ends. -/
structure StepOut where
  config : Config
  events : List Event
  calls : List Call
  outcome : StepOutcome
deriving Repr, DecidableEq

/-- `messages.rs` lines 232-275: dispatch of a decoded command inside the
read loop. `NewData` runs the pipeline (errors logged); `ReloadRequested`
breaks; `PermanentError` and `SessionSupersededElsewhere` clear the
credentials, save the config (save errors logged), send `Logout` (a send
failure propagates via `?`) and break; unknown bytes are logged only. -/
def dispatchCommand (cfg : Config) (env : NetEnv) : Command → StepOut
  | Command.KeepAlive => ⟨cfg, [], [], StepOutcome.cont⟩
  | Command.NewData =>
    match process_messages cfg env with
    | (_, cfg2, calls) => ⟨cfg2, [], calls, StepOutcome.cont⟩
  | Command.ReloadRequested => ⟨cfg, [], [], StepOutcome.brk⟩
  | Command.PermanentError =>
    let cfg' := { cfg with secret := none, device_id := none }
    if env.sendOk = true then
      ⟨cfg', [Event.Logout], [Call.save cfg'], StepOutcome.brk⟩
    else
      ⟨cfg', [], [Call.save cfg'], StepOutcome.fatal Err.sendFailed⟩
  | Command.SessionSupersededElsewhere =>
    let cfg' := { cfg with secret := none, device_id := none }
    if env.sendOk = true then
      ⟨cfg', [Event.Logout], [Call.save cfg'], StepOutcome.brk⟩
    else
      ⟨cfg', [], [Call.save cfg'], StepOutcome.fatal Err.sendFailed⟩
  | Command.Unknown _ => ⟨cfg, [], [], StepOutcome.cont⟩

/-- `messages.rs` lines 222-297: handling of one inbound websocket item.
Text/ping/pong/frame are logged and skipped; close and read errors break;
a one-byte binary frame is decoded and dispatched; any other binary frame
is logged and skipped. -/
def handleWsItem (cfg : Config) (env : NetEnv) : WsItem → StepOut
  | WsItem.text _ => ⟨cfg, [], [], StepOutcome.cont⟩
  | WsItem.binary bs =>
    match bs with
    | [b] => dispatchCommand cfg env (decode b)
    | _ => ⟨cfg, [], [], StepOutcome.cont⟩
  | WsItem.ping => ⟨cfg, [], [], StepOutcome.cont⟩
  | WsItem.pong => ⟨cfg, [], [], StepOutcome.cont⟩
  | WsItem.close => ⟨cfg, [], [], StepOutcome.brk⟩
  | WsItem.frame => ⟨cfg, [], [], StepOutcome.cont⟩
  | WsItem.err => ⟨cfg, [], [], StepOutcome.brk⟩

/-- The read loop over a list of inbound items: process items in order,
accumulating events and calls, stopping at the first step that does not
continue. -/
def runReadLoop (cfg : Config) (env : NetEnv) :
    List WsItem → Config × List Event × List Call
  | [] => (cfg, [], [])
  | item :: rest =>
    let out := handleWsItem cfg env item
    match out.outcome with
    | StepOutcome.cont =>
      let next := runReadLoop out.config env rest
      (next.1, out.events ++ next.2.1, out.calls ++ next.2.2)
    | _ => (out.config, out.events, out.calls)

/-- `messages.rs` lines 165-190, `connect_websocket`: builds the login
line from the two unwrapped credentials; `none` models the panic of an
`unwrap` on an absent credential. -/
def connect_websocket (cfg : Config) : Option String :=
  match cfg.device_id, cfg.secret with
  | some d, some s => some ("login:" ++ d ++ ":" ++ s ++ "\n")
  | _, _ => none

/-- What one iteration of the outer reconnect loop does before reading. -/
inductive LoopAction where
  | sleepRetry : LoopAction
  | connectAttempt : Option String → LoopAction
deriving Repr, DecidableEq

/-- `messages.rs` lines 210-218: the head of each outer-loop iteration —
when either credential is absent, log, sleep and retry; otherwise call
`connect_websocket`. -/
def outerLoopStep (cfg : Config) : LoopAction :=
  if cfg.secret.isNone || cfg.device_id.isNone then LoopAction.sleepRetry
  else LoopAction.connectAttempt (connect_websocket cfg)

/-- The message id a call deletes up to, if it is a delete call. -/
def Call.deletedId : Call → Option String
  | Call.download _ _ => none
  | Call.notify _ => none
  | Call.acknowledge _ _ => none
  | Call.delete _ _ mid => some mid
  | Call.save _ => none

/-- The receipt a call acknowledges, if it is an acknowledge call. -/
def Call.ackReceipt : Call → Option String
  | Call.download _ _ => none
  | Call.notify _ => none
  | Call.acknowledge _ r => some r
  | Call.delete _ _ _ => none
  | Call.save _ => none

/-- The config a call persists, if it is a save call. -/
def Call.savedConfig : Call → Option Config
  | Call.download _ _ => none
  | Call.notify _ => none
  | Call.acknowledge _ _ => none
  | Call.delete _ _ _ => none
  | Call.save c => some c

/-- The message ids deleted up to, in trace order. -/
def deletedIds : List Call → List String
  | [] => []
  | c :: rest =>
    match c.deletedId with
    | some mid => mid :: deletedIds rest
    | none => deletedIds rest

/-- The receipts acknowledged, in trace order. -/
def ackReceipts : List Call → List String
  | [] => []
  | c :: rest =>
    match c.ackReceipt with
    | some r => r :: ackReceipts rest
    | none => ackReceipts rest

/-- The configs persisted, in trace order. -/
def savedConfigs : List Call → List Config
  | [] => []
  | c :: rest =>
    match c.savedConfig with
    | some cfg => cfg :: savedConfigs rest
    | none => savedConfigs rest

/-- The receipts the spec expects to be acknowledged for a batch: one per
qualifying message, in batch order. -/
def expectedAcks : List Message → List String
  | [] => []
  | m :: ms =>
    match emergencyReceipt m with
    | some r => r :: expectedAcks ms
    | none => expectedAcks ms

/-- A logged-in configuration used to instantiate the theorems. -/
def cfg0 : Config := ⟨some ("u"), some ("s"), some ("d"), false, none⟩

/-- A configuration with no secret (and a device id still present). -/
def cfgNoSecret : Config := ⟨none, none, some ("d"), false, none⟩

/-- A low-priority message with numeric id 5. -/
def msg5 : Message :=
  ⟨5, "5", "", "", 0, "", "", 0, 0, 0, 0, "", none, none, none, none, none, none⟩

/-- An unacked emergency message with numeric id 9 and a receipt. -/
def msg0 : Message :=
  ⟨9, "9", "", "", 0, "", "", 0, 2, 0, 0, "", none, none, none, none, none,
    some ("rcpt9")⟩

/-- A successful download body holding the two sample messages. -/
def resp0 : MessagesResponse := ⟨1, "req", [msg5, msg0]⟩

/-- A download body whose `status` field is 0. -/
def respBad : MessagesResponse := ⟨0, "req", []⟩

/-- An environment where every external call succeeds. -/
def env0 : NetEnv :=
  ⟨true, Except.ok resp0, fun _ => true, fun _ => Except.ok (some 1),
   fun _ => true, fun _ => Except.ok (some 1), fun _ => true, true, true⟩

/-- Like `env0` but saving the config fails. -/
def envSaveFail : NetEnv := { env0 with saveOk := false }

/-- Like `env0` but every notification, acknowledge and delete call fails
(the config save still succeeds). -/
def envCallsFail : NetEnv :=
  ⟨true, Except.ok resp0, fun _ => false, fun _ => Except.error Err.parseFailure,
   fun _ => false, fun _ => Except.error Err.parseFailure, fun _ => false,
   true, true⟩

theorem maxAcc_mem (a : Message) (l : List Message) :
    maxAcc a l = a ∨ maxAcc a l ∈ l := by
  induction l generalizing a with
  | nil => exact Or.inl rfl
  | cons m ms ih =>
    simp only [maxAcc]
    by_cases hc : a.id ≤ m.id
    · rw [if_pos hc]
      rcases ih m with h | h
      · right
        rw [h]
        exact List.mem_cons_self m ms
      · exact Or.inr (List.mem_cons_of_mem _ h)
    · rw [if_neg hc]
      rcases ih a with h | h
      · exact Or.inl h
      · exact Or.inr (List.mem_cons_of_mem _ h)

theorem maxAcc_acc_le (a : Message) (l : List Message) :
    a.id ≤ (maxAcc a l).id := by
  induction l generalizing a with
  | nil => exact le_refl _
  | cons m ms ih =>
    simp only [maxAcc]
    by_cases hc : a.id ≤ m.id
    · rw [if_pos hc]
      exact le_trans hc (ih m)
    · rw [if_neg hc]
      exact ih a

theorem maxAcc_le (a : Message) (l : List Message) :
    ∀ m ∈ l, m.id ≤ (maxAcc a l).id := by
  induction l generalizing a with
  | nil => intro m hm; cases hm
  | cons m ms ih =>
    intro x hx
    simp only [maxAcc]
    rcases List.mem_cons.mp hx with rfl | hx2
    · by_cases hc : a.id ≤ x.id
      · rw [if_pos hc]
        exact maxAcc_acc_le x ms
      · rw [if_neg hc]
        exact le_trans (le_of_not_le hc) (maxAcc_acc_le a ms)
    · by_cases hc : a.id ≤ m.id
      · rw [if_pos hc]
        exact ih m x hx2
      · rw [if_neg hc]
        exact ih a x hx2

theorem deletedIds_append (t u : List Call) :
    deletedIds (t ++ u) = deletedIds t ++ deletedIds u := by
  induction t with
  | nil => rfl
  | cons c rest ih =>
    cases hc : c.deletedId <;> simp [deletedIds, hc, ih]

theorem ackReceipts_append (t u : List Call) :
    ackReceipts (t ++ u) = ackReceipts t ++ ackReceipts u := by
  induction t with
  | nil => rfl
  | cons c rest ih =>
    cases hc : c.ackReceipt <;> simp [ackReceipts, hc, ih]

theorem savedConfigs_append (t u : List Call) :
    savedConfigs (t ++ u) = savedConfigs t ++ savedConfigs u := by
  induction t with
  | nil => rfl
  | cons c rest ih =>
    cases hc : c.savedConfig <;> simp [savedConfigs, hc, ih]

theorem deletedIds_perMessage (s : String) (m : Message) :
    deletedIds (perMessageCalls s m) = [] := by
  unfold perMessageCalls
  cases emergencyReceipt m <;> rfl

theorem ackReceipts_perMessage (s : String) (m : Message) :
    ackReceipts (perMessageCalls s m) = (emergencyReceipt m).toList := by
  unfold perMessageCalls
  cases emergencyReceipt m <;> rfl

theorem savedConfigs_perMessage (s : String) (m : Message) :
    savedConfigs (perMessageCalls s m) = [] := by
  unfold perMessageCalls
  cases emergencyReceipt m <;> rfl

theorem deletedIds_loopCalls (s : String) (l : List Message) :
    deletedIds (loopCalls s l) = [] := by
  induction l with
  | nil => rfl
  | cons m ms ih =>
    simp [loopCalls, deletedIds_append, deletedIds_perMessage, ih]

theorem ackReceipts_loopCalls (s : String) (l : List Message) :
    ackReceipts (loopCalls s l) = expectedAcks l := by
  induction l with
  | nil => rfl
  | cons m ms ih =>
    cases h : emergencyReceipt m <;>
      simp [loopCalls, ackReceipts_append, ackReceipts_perMessage,
        expectedAcks, h, ih]

theorem savedConfigs_loopCalls (s : String) (l : List Message) :
    savedConfigs (loopCalls s l) = [] := by
  induction l with
  | nil => rfl
  | cons m ms ih =>
    simp [loopCalls, savedConfigs_append, savedConfigs_perMessage, ih]

theorem download_messages_ok (env : NetEnv) (r : MessagesResponse)
    (hh : env.downloadHttpOk = true) (hb : env.downloadBody = Except.ok r)
    (hst : r.status = 1) :
    download_messages env.downloadHttpOk env.downloadBody =
      Except.ok r.messages := by
  simp [download_messages, hh, hb, hst]

theorem process_messages_delete_ok (cfg : Config) (env : NetEnv)
    (s d : String) (r : MessagesResponse) (m0 : Message) (rest : List Message)
    (hs : cfg.secret = some s) (hd : cfg.device_id = some d)
    (hh : env.downloadHttpOk = true) (hb : env.downloadBody = Except.ok r)
    (hst : r.status = 1) (hm : r.messages = m0 :: rest)
    (hdel : delete_messages (env.deleteHttpOk (maxAcc m0 rest).id_str)
        (env.deleteBody (maxAcc m0 rest).id_str) = Except.ok ()) :
    process_messages cfg env =
      ((if env.saveOk = true then Except.ok () else Except.error Err.saveFailed),
       { cfg with last_message_id := some (maxAcc m0 rest).id_str },
       (Call.download s d :: loopCalls s (m0 :: rest)) ++
         [Call.delete s d (maxAcc m0 rest).id_str,
          Call.save { cfg with last_message_id := some (maxAcc m0 rest).id_str }]) := by
  have hdl : download_messages env.downloadHttpOk env.downloadBody =
      Except.ok (m0 :: rest) := by
    rw [download_messages_ok env r hh hb hst, hm]
  simp [process_messages, hs, hd, hdl, hdel]

theorem process_messages_delete_err (cfg : Config) (env : NetEnv)
    (s d : String) (r : MessagesResponse) (m0 : Message) (rest : List Message)
    (e : Err)
    (hs : cfg.secret = some s) (hd : cfg.device_id = some d)
    (hh : env.downloadHttpOk = true) (hb : env.downloadBody = Except.ok r)
    (hst : r.status = 1) (hm : r.messages = m0 :: rest)
    (hdel : delete_messages (env.deleteHttpOk (maxAcc m0 rest).id_str)
        (env.deleteBody (maxAcc m0 rest).id_str) = Except.error e) :
    process_messages cfg env =
      (Except.ok (), cfg,
       (Call.download s d :: loopCalls s (m0 :: rest)) ++
         [Call.delete s d (maxAcc m0 rest).id_str]) := by
  have hdl : download_messages env.downloadHttpOk env.downloadBody =
      Except.ok (m0 :: rest) := by
    rw [download_messages_ok env r hh hb hst, hm]
  simp [process_messages, hs, hd, hdl, hdel]

/-- C4: the control-frame decoder is a total function on bytes and follows
the command table: 35 is KeepAlive, 33 is NewData,
82 is ReloadRequested, 69 is PermanentError,
65 is SessionSupersededElsewhere, and every other byte value decodes to
Unknown of that byte. -/
theorem c4_decoder_total_table (b : Nat) (hb : b < 256)
    (h1 : b ≠ 35) (h2 : b ≠ 33) (h3 : b ≠ 82) (h4 : b ≠ 69) (h5 : b ≠ 65) :
    decode 35 = Command.KeepAlive ∧
    decode 33 = Command.NewData ∧
    decode 82 = Command.ReloadRequested ∧
    decode 69 = Command.PermanentError ∧
    decode 65 = Command.SessionSupersededElsewhere ∧
    decode b = Command.Unknown b := by
  refine ⟨rfl, rfl, rfl, rfl, rfl, ?_⟩
  simp [decode, h1, h2, h3, h4, h5]

/-- C4 witness: the table instantiated at the unmapped byte 0. -/
theorem c4_decoder_total_table_witness :
    decode 35 = Command.KeepAlive ∧
    decode 33 = Command.NewData ∧
    decode 82 = Command.ReloadRequested ∧
    decode 69 = Command.PermanentError ∧
    decode 65 = Command.SessionSupersededElsewhere ∧
    decode 0 = Command.Unknown 0 :=
  c4_decoder_total_table 0 (by decide) (by decide) (by decide) (by decide)
    (by decide) (by decide)

/-- C5: when the secret or the device id is absent, `process_messages`
returns an error, leaves the config unchanged, and its call trace is empty:
no download, acknowledge, delete or save happens. -/
theorem c5_missing_credentials_fail_fast (cfg : Config) (env : NetEnv)
    (h : cfg.secret = none ∨ cfg.device_id = none) :
    process_messages cfg env = (Except.error Err.missingCredentials, cfg, []) := by
  rcases h with h | h
  · cases hd : cfg.device_id <;> simp [process_messages, h, hd]
  · cases hs : cfg.secret <;> simp [process_messages, h, hs]

/-- C5 witness: the pipeline on a config with no secret. -/
theorem c5_missing_credentials_fail_fast_witness :
    process_messages cfgNoSecret env0 =
      (Except.error Err.missingCredentials, cfgNoSecret, []) :=
  c5_missing_credentials_fail_fast cfgNoSecret env0 (Or.inl rfl)

/-- C7: for each of the three REST operations, a response body whose
`status` field differs from 1 makes the operation return an error, even
when the HTTP status indicates success. -/
theorem c7_body_status_ne_one_fails (st : Int) (hst : st ≠ 1)
    (r : MessagesResponse) (hr : r.status = st) :
    download_messages true (Except.ok r) = Except.error Err.badStatus ∧
    delete_messages true (Except.ok (some st)) = Except.error Err.badStatus ∧
    acknowledge_emergency true (Except.ok (some st)) = Except.error Err.badStatus := by
  refine ⟨?_, ?_, ?_⟩
  · simp [download_messages, hr, hst]
  · simp [delete_messages, hst]
  · simp [acknowledge_emergency, hst]

/-- C7 witness: the three operations on a body with status 0. -/
theorem c7_body_status_ne_one_fails_witness :
    download_messages true (Except.ok respBad) = Except.error Err.badStatus ∧
    delete_messages true (Except.ok (some 0)) = Except.error Err.badStatus ∧
    acknowledge_emergency true (Except.ok (some 0)) = Except.error Err.badStatus :=
  c7_body_status_ne_one_fails 0 (by decide) respBad rfl

/-- C8: a one-byte binary payload frame is decoded and dispatched, while a
binary payload frame whose length is not 1 changes nothing: config, events
and calls are untouched and the loop continues. -/
theorem c8_one_byte_frames_dispatched (cfg : Config) (env : NetEnv)
    (bs : List Nat) :
    (∀ b, bs = [b] →
      handleWsItem cfg env (WsItem.binary bs) = dispatchCommand cfg env (decode b)) ∧
    (bs.length ≠ 1 →
      handleWsItem cfg env (WsItem.binary bs) = ⟨cfg, [], [], StepOutcome.cont⟩) := by
  constructor
  · rintro b rfl
    rfl
  · intro hlen
    match bs with
    | [] => rfl
    | [b] => exact absurd rfl hlen
    | b1 :: b2 :: tl => rfl

/-- C8 witness: a two-byte binary frame is ignored. -/
theorem c8_one_byte_frames_dispatched_witness :
    handleWsItem cfg0 env0 (WsItem.binary [35, 35]) =
      ⟨cfg0, [], [], StepOutcome.cont⟩ :=
  (c8_one_byte_frames_dispatched cfg0 env0 [35, 35]).2 (by decide)

/-- C9: whenever the outer reconnect loop reaches a connection attempt,
both credentials are present, and the login line `connect_websocket`
builds from the two unwraps is defined (no panic). -/
theorem c9_connect_only_with_credentials (cfg : Config) (m : Option String)
    (h : outerLoopStep cfg = LoopAction.connectAttempt m) :
    cfg.secret.isSome = true ∧ cfg.device_id.isSome = true ∧
      ∃ s, m = some s := by
  cases hs : cfg.secret with
  | none => simp [outerLoopStep, hs] at h
  | some s =>
    cases hd : cfg.device_id with
    | none => simp [outerLoopStep, hs, hd] at h
    | some d =>
      refine ⟨by simp [hs], by simp [hd], ?_⟩
      simp [outerLoopStep, hs, hd, connect_websocket] at h
      exact ⟨"login:" ++ d ++ ":" ++ s ++ "\n", h.symm⟩

/-- C9 witness: the loop head on a logged-in config attempts a connection
with a defined login line. -/
theorem c9_connect_only_with_credentials_witness :
    cfg0.secret.isSome = true ∧ cfg0.device_id.isSome = true ∧
      ∃ s, connect_websocket cfg0 = some s :=
  c9_connect_only_with_credentials cfg0 (connect_websocket cfg0) rfl

/-- C1: on a non-empty successfully downloaded batch, the delete operation
is called exactly once, with the `id_str` of a message of the batch whose
numeric `id` is maximal over the batch — never the `id_str` of a message
with a smaller `id`. -/
theorem c1_delete_targets_max_id (cfg : Config) (env : NetEnv)
    (s d : String) (r : MessagesResponse) (m0 : Message) (rest : List Message)
    (hs : cfg.secret = some s) (hd : cfg.device_id = some d)
    (hh : env.downloadHttpOk = true) (hb : env.downloadBody = Except.ok r)
    (hst : r.status = 1) (hm : r.messages = m0 :: rest) :
    ∃ hi, hi ∈ m0 :: rest ∧ (∀ m ∈ m0 :: rest, m.id ≤ hi.id) ∧
      deletedIds (process_messages cfg env).2.2 = [hi.id_str] := by
  refine ⟨maxAcc m0 rest, ?_, ?_, ?_⟩
  · rcases maxAcc_mem m0 rest with h | h
    · rw [h]
      exact List.mem_cons_self m0 rest
    · exact List.mem_cons_of_mem _ h
  · intro m hmem
    rcases List.mem_cons.mp hmem with rfl | hmem2
    · exact maxAcc_acc_le m rest
    · exact maxAcc_le m0 rest m hmem2
  · cases hdel : delete_messages (env.deleteHttpOk (maxAcc m0 rest).id_str)
        (env.deleteBody (maxAcc m0 rest).id_str) with
    | ok u =>
      cases u
      rw [process_messages_delete_ok cfg env s d r m0 rest hs hd hh hb hst hm hdel]
      simp [deletedIds_append, deletedIds_loopCalls, deletedIds, Call.deletedId]
    | error e =>
      rw [process_messages_delete_err cfg env s d r m0 rest e hs hd hh hb hst hm hdel]
      simp [deletedIds_append, deletedIds_loopCalls, deletedIds, Call.deletedId]

/-- C1 witness: on the sample batch with ids 5 and 9, the delete trace is
exactly the maximal id's string. -/
theorem c1_delete_targets_max_id_witness :
    ∃ hi, hi ∈ [msg5, msg0] ∧ (∀ m ∈ [msg5, msg0], m.id ≤ hi.id) ∧
      deletedIds (process_messages cfg0 env0).2.2 = [hi.id_str] :=
  c1_delete_targets_max_id cfg0 env0 ("s") ("d") resp0 msg5 [msg0]
    rfl rfl rfl rfl rfl rfl

/-- C2: on a non-empty successfully downloaded batch, a config with
`last_message_id` set to the highest message's `id_str` is persisted
exactly when the delete call succeeds; when the delete call fails, nothing
is persisted at all and the in-memory config is unchanged. -/
theorem c2_persist_iff_delete_success (cfg : Config) (env : NetEnv)
    (s d : String) (r : MessagesResponse) (m0 : Message) (rest : List Message)
    (hs : cfg.secret = some s) (hd : cfg.device_id = some d)
    (hh : env.downloadHttpOk = true) (hb : env.downloadBody = Except.ok r)
    (hst : r.status = 1) (hm : r.messages = m0 :: rest) :
    (delete_messages (env.deleteHttpOk (maxAcc m0 rest).id_str)
        (env.deleteBody (maxAcc m0 rest).id_str) = Except.ok () →
      savedConfigs (process_messages cfg env).2.2 =
        [{ cfg with last_message_id := some (maxAcc m0 rest).id_str }] ∧
      (process_messages cfg env).2.1 =
        { cfg with last_message_id := some (maxAcc m0 rest).id_str }) ∧
    (∀ e, delete_messages (env.deleteHttpOk (maxAcc m0 rest).id_str)
        (env.deleteBody (maxAcc m0 rest).id_str) = Except.error e →
      savedConfigs (process_messages cfg env).2.2 = [] ∧
      (process_messages cfg env).2.1 = cfg) := by
  constructor
  · intro hdel
    rw [process_messages_delete_ok cfg env s d r m0 rest hs hd hh hb hst hm hdel]
    refine ⟨?_, rfl⟩
    simp [savedConfigs_append, savedConfigs_loopCalls, savedConfigs, Call.savedConfig]
  · intro e hdel
    rw [process_messages_delete_err cfg env s d r m0 rest e hs hd hh hb hst hm hdel]
    refine ⟨?_, rfl⟩
    simp [savedConfigs_append, savedConfigs_loopCalls, savedConfigs, Call.savedConfig]

/-- C2 witness: with a succeeding delete on the sample batch, exactly the
config with `last_message_id` set to the highest id is persisted. -/
theorem c2_persist_iff_delete_success_witness :
    savedConfigs (process_messages cfg0 env0).2.2 =
      [{ cfg0 with last_message_id := some ("9") }] ∧
    (process_messages cfg0 env0).2.1 = { cfg0 with last_message_id := some ("9") } :=
  (c2_persist_iff_delete_success cfg0 env0 ("s") ("d") resp0 msg5 [msg0]
    rfl rfl rfl rfl rfl rfl).1 rfl

/-- C3: when the read loop receives a one-byte binary frame holding 69
(the byte of PermanentError) or 65 (the byte of
SessionSupersededElsewhere) and the channel send succeeds, it clears both
credentials, persists exactly that cleared config, emits exactly one
Logout event, and stops processing further items (the loop breaks). -/
theorem c3_logout_and_break_on_error_bytes (cfg : Config) (env : NetEnv)
    (b : Nat) (rest : List WsItem)
    (hsend : env.sendOk = true) (hb : b = 69 ∨ b = 65) :
    runReadLoop cfg env (WsItem.binary [b] :: rest) =
      ({ cfg with secret := none, device_id := none },
       [Event.Logout],
       [Call.save { cfg with secret := none, device_id := none }]) := by
  rcases hb with rfl | rfl <;>
    simp [runReadLoop, handleWsItem, decode, dispatchCommand, hsend]

/-- C3 witness: the read loop on a single frame holding byte 69. -/
theorem c3_logout_and_break_on_error_bytes_witness :
    runReadLoop cfg0 env0 [WsItem.binary [69]] =
      ({ cfg0 with secret := none, device_id := none },
       [Event.Logout],
       [Call.save { cfg0 with secret := none, device_id := none }]) :=
  c3_logout_and_break_on_error_bytes cfg0 env0 69 [] rfl (Or.inl rfl)

/-- C6: on a non-empty successfully downloaded batch, the acknowledged
receipts are exactly one per message with `priority ≥ 2`, `acked = 0` and a
present receipt (in batch order, with that message's receipt), and none for
any other message; this and the final delete call hold for every outcome of
the notification and acknowledge calls, so their failures stop nothing. -/
theorem c6_ack_exactly_per_qualifying (cfg : Config) (env : NetEnv)
    (s d : String) (r : MessagesResponse) (m0 : Message) (rest : List Message)
    (hs : cfg.secret = some s) (hd : cfg.device_id = some d)
    (hh : env.downloadHttpOk = true) (hb : env.downloadBody = Except.ok r)
    (hst : r.status = 1) (hm : r.messages = m0 :: rest) :
    ackReceipts (process_messages cfg env).2.2 = expectedAcks (m0 :: rest) ∧
    deletedIds (process_messages cfg env).2.2 = [(maxAcc m0 rest).id_str] := by
  cases hdel : delete_messages (env.deleteHttpOk (maxAcc m0 rest).id_str)
      (env.deleteBody (maxAcc m0 rest).id_str) with
  | ok u =>
    cases u
    rw [process_messages_delete_ok cfg env s d r m0 rest hs hd hh hb hst hm hdel]
    constructor <;>
      simp [ackReceipts_append, ackReceipts_loopCalls, deletedIds_append,
        deletedIds_loopCalls, ackReceipts, deletedIds, Call.ackReceipt,
        Call.deletedId]
  | error e =>
    rw [process_messages_delete_err cfg env s d r m0 rest e hs hd hh hb hst hm hdel]
    constructor <;>
      simp [ackReceipts_append, ackReceipts_loopCalls, deletedIds_append,
        deletedIds_loopCalls, ackReceipts, deletedIds, Call.ackReceipt,
        Call.deletedId]

/-- C6 witness: on the sample batch, exactly the emergency message's
receipt is acknowledged and the delete targets the highest id. -/
theorem c6_ack_exactly_per_qualifying_witness :
    ackReceipts (process_messages cfg0 env0).2.2 = ["rcpt9"] ∧
    deletedIds (process_messages cfg0 env0).2.2 = ["9"] :=
  c6_ack_exactly_per_qualifying cfg0 env0 ("s") ("d") resp0 msg5 [msg0]
    rfl rfl rfl rfl rfl rfl

/-- C10 counterexample: with credentials present and a successful
download, the pipeline still returns an error when the delete succeeds but
saving the config fails (the `?` on `save_config` at `messages.rs` line
158 propagates), so "returns success whenever credentials are present and
the download succeeds" is false as stated. -/
theorem c10_save_failure_counterexample :
    cfg0.secret = some ("s") ∧ cfg0.device_id = some ("d") ∧
    download_messages envSaveFail.downloadHttpOk envSaveFail.downloadBody =
      Except.ok [msg5, msg0] ∧
    (process_messages cfg0 envSaveFail).1 = Except.error Err.saveFailed := by
  refine ⟨rfl, rfl, rfl, ?_⟩
  rfl

/-- C10 (amended): with credentials present, a successful download, and
the config save succeeding whenever attempted, the pipeline returns
success for every outcome of the notification, acknowledge and delete
calls — in particular a delete failure is logged and never surfaced. -/
theorem c10_success_despite_call_failures (cfg : Config) (env : NetEnv)
    (s d : String) (r : MessagesResponse)
    (hs : cfg.secret = some s) (hd : cfg.device_id = some d)
    (hh : env.downloadHttpOk = true) (hb : env.downloadBody = Except.ok r)
    (hst : r.status = 1) (hsave : env.saveOk = true) :
    (process_messages cfg env).1 = Except.ok () := by
  cases hm : r.messages with
  | nil =>
    have hdl : download_messages env.downloadHttpOk env.downloadBody =
        Except.ok [] := by
      rw [download_messages_ok env r hh hb hst, hm]
    simp [process_messages, hs, hd, hdl]
  | cons m0 rest =>
    cases hdel : delete_messages (env.deleteHttpOk (maxAcc m0 rest).id_str)
        (env.deleteBody (maxAcc m0 rest).id_str) with
    | ok u =>
      cases u
      rw [process_messages_delete_ok cfg env s d r m0 rest hs hd hh hb hst hm hdel]
      simp [hsave]
    | error e =>
      rw [process_messages_delete_err cfg env s d r m0 rest e hs hd hh hb hst hm hdel]

/-- C10 witness: with every notification, acknowledge and delete call
failing (and saves succeeding), the pipeline still returns success. -/
theorem c10_success_despite_call_failures_witness :
    (process_messages cfg0 envCallsFail).1 = Except.ok () :=
  c10_success_despite_call_failures cfg0 envCallsFail ("s") ("d") resp0
    rfl rfl rfl rfl rfl rfl

end Miniover
